import Mathlib

/-!
Verification development for the swarm-orchestration template repository.

The TypeScript sources are shallowly embedded as Lean functions:

- string-valued computations work on `List Char` with structural recursion
  (so that concrete runs are kernel-evaluable), with `String` only at the
  boundaries;
- the black-box language-model call is a parameter of type
  `String → Except String String` (a throw is an `Except.error`);
- JavaScript truthiness of a possibly-absent string field is modelled by
  `Option (List Char)` together with the `truthy` test (an empty string is
  falsy, an absent field is falsy);
- wall-clock readings (`new Date()`) are modelled as the millisecond value
  handed to each call; `toISOString` renders the millisecond value
  injectively and order-preservingly, so ordering facts about the rendered
  timestamps are stated on the millisecond values themselves.
-/

/-! ## Character-list utilities (models of the JS string methods used) -/

/-- Model of `String.prototype.trim`: drop whitespace at both ends. -/
def trimChars (l : List Char) : List Char :=
  ((l.dropWhile Char.isWhitespace).reverse.dropWhile Char.isWhitespace).reverse

/-- Model of `text.split(sep)` for the single character `'\n'`. -/
def splitLines : List Char → List (List Char)
  | [] => [[]]
  | c :: rest =>
    if c = '\n' then [] :: splitLines rest
    else
      match splitLines rest with
      | [] => [[c]]
      | l :: ls => (c :: l) :: ls

/-- Model of `line.split(sep, 2)[1]` for the separator `':'`: the text
strictly between the first colon and the second colon (or the end). -/
def colonField (l : List Char) : List Char :=
  ((l.dropWhile (fun c => c ≠ ':')).drop 1).takeWhile (fun c => c ≠ ':')

/-- Model of `haystack.includes(needle)` (substring containment). -/
def containsSub (needle : List Char) : List Char → Bool
  | [] => needle.isEmpty
  | c :: rest => needle.isPrefixOf (c :: rest) || containsSub needle rest

/-- Model of `s.toLowerCase()` restricted to ASCII (all keyword matching in
the source uses ASCII keywords). -/
def lowerData (s : String) : List Char :=
  s.data.map Char.toLower

/-! ## Router delegation parsing (src/src/agents/router-agent.ts) -/

/-- One delegation instruction, the `Delegation` record of router-agent.ts. -/
structure Delegation where
  agent : String
  task : String
deriving DecidableEq

/-- The mutable `currentDelegation` object of `analyzeAndDelegate` (a
Delegation in the making): either field may still be absent. -/
structure PendingDelegation where
  agent : Option (List Char)
  task : Option (List Char)
deriving DecidableEq

/-- JavaScript truthiness of a possibly-absent string field: present and
non-empty. -/
def truthy : Option (List Char) → Bool
  | some l => !l.isEmpty
  | none => false

/-- The commit step `if (currentDelegation.agent && currentDelegation.task)
delegations.push(currentDelegation)` of `analyzeAndDelegate`. -/
def commitPending (out : List Delegation) (pd : PendingDelegation) : List Delegation :=
  if truthy pd.agent && truthy pd.task then
    out ++ [⟨String.mk (pd.agent.getD []), String.mk (pd.task.getD [])⟩]
  else out

/-- The characters of the line head `"- agent:"`. -/
def agentTag : List Char := "- agent:".data

/-- The characters of the line head `"- task:"`. -/
def taskTag : List Char := "- task:".data

/-- The body of the `for (let line of lines)` loop of `analyzeAndDelegate`
(router-agent.ts lines 57 to 67), acting on the pair
(delegations so far, pending delegation). -/
def delegStep (st : List Delegation × PendingDelegation) (line0 : List Char) :
    List Delegation × PendingDelegation :=
  let line := trimChars line0
  if agentTag.isPrefixOf line then
    (commitPending st.1 st.2, ⟨some (trimChars (colonField line)), none⟩)
  else if taskTag.isPrefixOf line && truthy st.2.agent then
    (st.1, ⟨st.2.agent, some (trimChars (colonField line))⟩)
  else st

/-- The whole parsing loop of `analyzeAndDelegate` over a list of lines,
including the final flush of a fully-formed pending delegation. -/
def parseLines (ls : List (List Char)) : List Delegation :=
  let st := ls.foldl delegStep ([], ⟨none, none⟩)
  commitPending st.1 st.2

/-- Parsing a raw planning response: split on newlines, then run the loop
(router-agent.ts lines 52 to 71). -/
def parseDelegations (analysis : String) : List Delegation :=
  parseLines (splitLines analysis.data)

/-- The keyword set scanned for code intent (router-agent.ts line 90). -/
def codeKeywords : List String :=
  ["code", "implement", "build", "create", "write", "function"]

/-- The keyword set scanned for review intent (router-agent.ts line 99). -/
def reviewKeywords : List String :=
  ["review", "check", "security", "quality", "analyze"]

/-- The keyword set scanned for research intent (router-agent.ts line 108). -/
def researchKeywords : List String :=
  ["research", "search", "find", "information", "learn"]

/-- `words.some((word) => taskLower.includes(word))` for one keyword set. -/
def keywordHit (task : String) (ws : List String) : Bool :=
  ws.any (fun w => containsSub w.data (lowerData task))

/-- The three keyword checks of `simpleDelegate`, in the fixed scan order
code, review, research (router-agent.ts lines 88 to 113). -/
def keywordDelegations (task : String) : List Delegation :=
  (if keywordHit task codeKeywords then [⟨"coder", task⟩] else []) ++
    (if keywordHit task reviewKeywords then [⟨"reviewer", task⟩] else []) ++
      (if keywordHit task researchKeywords then [⟨"researcher", task⟩] else [])

/-- `RouterAgent.simpleDelegate` (router-agent.ts lines 84 to 121): keyword
matching with a default single delegation to the coder. -/
def simpleDelegate (task : String) : List Delegation :=
  if keywordDelegations task = [] then [⟨"coder", task⟩]
  else keywordDelegations task

/-- `RouterAgent.analyzeAndDelegate` (router-agent.ts lines 49 to 79), with
the raw planning response of the model call passed in as `analysis`. -/
def analyzeAndDelegate (analysis userTask : String) : List Delegation :=
  if parseDelegations analysis = [] then simpleDelegate userTask
  else parseDelegations analysis

/-- Whether any of the three keyword sets matches the task text. -/
def matchesAnyKeyword (task : String) : Bool :=
  keywordHit task codeKeywords || keywordHit task reviewKeywords ||
    keywordHit task researchKeywords

/-- The keyword fallback never returns the empty list: when none of the
three sets matches, the default coder delegation is pushed. -/
theorem simpleDelegate_ne_nil (task : String) : simpleDelegate task ≠ [] := by
  unfold simpleDelegate
  split
  · simp
  · assumption

/-- Claim C1: for every planning response and task text, `analyzeAndDelegate`
returns a non-empty delegation list; when zero delegations parse, the result
is the keyword fallback; and when no keyword set matches, the fallback is
exactly one delegation to the coder carrying the original task text. -/
theorem routerC1 (analysis userTask : String) :
    analyzeAndDelegate analysis userTask ≠ [] ∧
      (parseDelegations analysis = [] →
        analyzeAndDelegate analysis userTask = simpleDelegate userTask) ∧
      (matchesAnyKeyword userTask = false →
        simpleDelegate userTask = [⟨"coder", userTask⟩]) := by
  refine ⟨?_, ?_, ?_⟩
  · unfold analyzeAndDelegate
    split
    · exact simpleDelegate_ne_nil userTask
    · assumption
  · intro h
    simp [analyzeAndDelegate, h]
  · intro h
    simp only [matchesAnyKeyword, Bool.or_eq_false_iff] at h
    simp [simpleDelegate, keywordDelegations, h.1.1, h.1.2, h.2]

/-- Witness for C1 at a concrete input: the empty planning response parses
to zero delegations and the task text matches no keyword set, so the
fallback path and the coder default both fire. -/
theorem routerC1_witness :
    analyzeAndDelegate "" "zzz" = simpleDelegate "zzz" ∧
      simpleDelegate "zzz" = [⟨"coder", "zzz"⟩] :=
  ⟨(routerC1 "" "zzz").2.1 (by decide), (routerC1 "" "zzz").2.2 (by decide)⟩

/-- A line that is neither an agent line nor a task line after trimming
(the loop body falls through both branches on it). -/
def neutralLine (l : List Char) : Bool :=
  !agentTag.isPrefixOf (trimChars l) && !taskTag.isPrefixOf (trimChars l)

/-- The loop body on an agent line: commit a fully-formed pending
delegation and start a fresh pending delegation holding only the parsed
agent field. -/
theorem delegStep_agent (st : List Delegation × PendingDelegation) (a : List Char)
    (h : agentTag.isPrefixOf (trimChars a) = true) :
    delegStep st a = (commitPending st.1 st.2,
      ⟨some (trimChars (colonField (trimChars a))), none⟩) := by
  simp [delegStep, h]

/-- The loop body leaves the state unchanged on a neutral line. -/
theorem delegStep_neutral (st : List Delegation × PendingDelegation) (l : List Char)
    (h : neutralLine l = true) : delegStep st l = st := by
  simp only [neutralLine, Bool.and_eq_true, Bool.not_eq_true'] at h
  simp [delegStep, h.1, h.2]

/-- A run of neutral lines leaves the loop state unchanged. -/
theorem foldl_neutral :
    ∀ (mid : List (List Char)) (st : List Delegation × PendingDelegation),
      (∀ l ∈ mid, neutralLine l = true) → mid.foldl delegStep st = st := by
  intro mid
  induction mid with
  | nil => intro st _; rfl
  | cons l mid ih =>
    intro st h
    rw [List.foldl_cons, delegStep_neutral st l (h l (List.mem_cons_self l mid))]
    exact ih st (fun x hx => h x (List.mem_cons_of_mem l hx))

/-- Committing a pending delegation whose task field is still absent is a
no-op: the falsy task field fails the truthiness check. -/
theorem commitPending_taskless (out : List Delegation) (x : Option (List Char)) :
    commitPending out ⟨x, none⟩ = out := by
  simp [commitPending, truthy]

/-- Claim C2: the delegation-plan parser maps the two-delegation example to
exactly the two expected delegations in order, and a pending delegation
that has an agent line but no subsequent task line is dropped, in full
generality: an orphaned agent line followed by any run of lines that are
neither agent nor task lines contributes nothing to the output, both when
end-of-input follows (the orphan segment can be deleted) and when the next
agent line follows (the orphan segment can be deleted in front of any
continuation). -/
theorem routerC2 :
    parseDelegations
        "- agent: coder\n- task: write X\n- agent: reviewer\n- task: review X" =
      [⟨"coder", "write X"⟩, ⟨"reviewer", "review X"⟩] ∧
      (∀ (pre mid : List (List Char)) (a1 : List Char),
        agentTag.isPrefixOf (trimChars a1) = true →
          (∀ l ∈ mid, neutralLine l = true) →
            parseLines (pre ++ a1 :: mid) = parseLines pre) ∧
      (∀ (pre mid rest : List (List Char)) (a1 a2 : List Char),
        agentTag.isPrefixOf (trimChars a1) = true →
          agentTag.isPrefixOf (trimChars a2) = true →
            (∀ l ∈ mid, neutralLine l = true) →
              parseLines (pre ++ a1 :: (mid ++ a2 :: rest)) =
                parseLines (pre ++ a2 :: rest)) := by
  refine ⟨by decide, ?_, ?_⟩
  · intro pre mid a1 h1 hmid
    unfold parseLines
    rw [List.foldl_append, List.foldl_cons, delegStep_agent _ a1 h1,
      foldl_neutral mid _ hmid]
    exact commitPending_taskless _ _
  · intro pre mid rest a1 a2 h1 h2 hmid
    unfold parseLines
    rw [List.foldl_append, List.foldl_append, List.foldl_cons, List.foldl_cons,
      delegStep_agent _ a1 h1, List.foldl_append, foldl_neutral mid _ hmid,
      List.foldl_cons, delegStep_agent _ a2 h2, delegStep_agent _ a2 h2,
      commitPending_taskless]

/-- Witness for C2 at a concrete input: an agent line orphaned by a junk
line and then the next agent line is dropped in front of a concrete
continuation. -/
theorem routerC2_witness :
    parseLines ([] ++ "- agent: ghost".data ::
        (["junk".data] ++ "- agent: coder".data :: ["- task: t".data])) =
      parseLines ([] ++ "- agent: coder".data :: ["- task: t".data]) :=
  routerC2.2.2 [] ["junk".data] ["- task: t".data] "- agent: ghost".data
    "- agent: coder".data (by decide) (by decide) (by decide)

/-- The task text of the end-to-end scenario of spec section 8. -/
def c3task : String := "review this function for security issues"

/-- Counterexample to claim C3: the keyword fallback on the scenario task
does not produce the single reviewer delegation the claim states, because
the task text also contains the code-intent keyword. -/
theorem routerC3_counterexample :
    simpleDelegate c3task ≠ [⟨"reviewer", c3task⟩] := by decide

/-- Claim C3 as amended: on the scenario task text, when zero delegations
parse from the planning response, the keyword fallback selects exactly the
two delegations coder then reviewer (the task matches the code keyword
"function" as well as the review keywords), each carrying the original task
text. -/
theorem routerC3_amended (analysis : String) (h : parseDelegations analysis = []) :
    analyzeAndDelegate analysis c3task =
      [⟨"coder", c3task⟩, ⟨"reviewer", c3task⟩] := by
  rw [analyzeAndDelegate, if_pos h]
  decide

/-- Witness for the amended C3: the empty planning response parses to zero
delegations, so the fallback fires on the scenario task. -/
theorem routerC3_amended_witness :
    analyzeAndDelegate "" c3task = [⟨"coder", c3task⟩, ⟨"reviewer", c3task⟩] :=
  routerC3_amended "" (by decide)

/-! ## Message bus (src/unnamed/part_002, class MessageBus) -/

/-- The `Message` record of the swarm module. The source field `from` is a
reserved word in Lean and is rendered `fromAgent` (matching the parameter
name of `send`); `to` is rendered `toAgent` likewise. The source field
`timestamp` holds `new Date().toISOString()`; it is modelled by the
millisecond reading of the wall clock at the `send` call, since the ISO
rendering is injective and order-preserving in the millisecond value. -/
structure Message where
  fromAgent : String
  toAgent : String
  type : String
  content : String
  timestamp : Nat
deriving DecidableEq

/-- `MessageBus.send` (part_002 lines 35 to 44): push one message built from
the arguments and the current wall-clock reading `now`. -/
def busSend (bus : List Message) (now : Nat)
    (fromAgent toAgent messageType content : String) : List Message :=
  bus ++ [⟨fromAgent, toAgent, messageType, content, now⟩]

/-- `MessageBus.getContextFor` (part_002 lines 50 to 52): all messages sent
to or from the given agent, in append order. -/
def getContextFor (bus : List Message) (agentName : String) : List Message :=
  bus.filter (fun m => m.toAgent == agentName || m.fromAgent == agentName)

/-- Claim C8 fails on the code: two `send` calls that fall in the same
wall-clock millisecond (here both at reading 1700000000000) are assigned
identical timestamps, so the timestamps of the log are not strictly
increasing; the appends themselves do succeed (the log has both entries). -/
theorem busC8_equal_timestamps :
    (busSend (busSend [] 1700000000000 "router" "coder" "task" "t1")
          1700000000000 "coder" "router" "result" "r1").map Message.timestamp =
        [1700000000000, 1700000000000] ∧
      ¬ List.Pairwise (fun a b => a.timestamp < b.timestamp)
        (busSend (busSend [] 1700000000000 "router" "coder" "task" "t1")
          1700000000000 "coder" "router" "result" "r1") := by
  constructor
  · decide
  · intro h
    simp [busSend, List.pairwise_cons] at h

/-! ## Base agent (src/src/agents/base-agent.ts) -/

/-- One entry of `conversationHistory` (a record with `role` and `content`
keys). -/
structure HistoryEntry where
  role : String
  content : String
deriving DecidableEq

/-- The state of a `BaseAgent`: its fixed role, fixed system instruction,
and the conversation history the `execute` method appends to. -/
structure AgentState where
  role : String
  systemPrompt : String
  conversationHistory : List HistoryEntry
deriving DecidableEq

/-- The black-box model call (`generateContent` followed by `.text()`): a
function from the full prompt to either the response text or a thrown
error, rendered as text. -/
abbrev GenFn := String → Except String String

/-- The context block built by `BaseAgent.execute` (base-agent.ts lines 81
to 88): one `[sender]: content` line per context message, where a falsy
(empty) sender renders as `unknown`. -/
def contextBlock (context : List Message) : String :=
  context.foldl
    (fun acc m =>
      acc ++ "[" ++ (if m.fromAgent.data.isEmpty then "unknown" else m.fromAgent) ++
        "]: " ++ m.content ++ "\n")
    "\n\nContext from other agents:\n"

/-- The full prompt built by `BaseAgent.execute` (base-agent.ts lines 77 to
90): system instruction, task, and the context block when the context list
is non-empty. -/
def buildPrompt (ag : AgentState) (task : String) (context : List Message) : String :=
  let base := ag.systemPrompt ++ "\n\nTask: " ++ task
  if context.isEmpty then base else base ++ contextBlock context

/-- `BaseAgent.execute` (base-agent.ts lines 93 to 119): build the prompt,
issue the single model call, trim and record the output on success, or
catch a thrown error into a role-tagged result string. The `gen` argument
is `none` exactly when `this.model` is unset (in the source the constructor
always sets it; the guard is kept for fidelity). Returns the result string
and the agent state after the call. -/
def agentExecute (gen : Option GenFn) (ag : AgentState) (task : String)
    (context : List Message) : String × AgentState :=
  let fullPrompt := buildPrompt ag task context
  match gen with
  | none => ("[" ++ ag.role ++ "] Error: Model not initialized", ag)
  | some g =>
    match g fullPrompt with
    | Except.ok raw =>
      let output := String.mk (trimChars raw.data)
      (output,
        { ag with
          conversationHistory :=
            ag.conversationHistory ++ [⟨"user", task⟩, ⟨"assistant", output⟩] })
    | Except.error e => ("[" ++ ag.role ++ "] Error executing task: " ++ e, ag)

/-- Claim C9: `BaseAgent.execute` is atomic with respect to the
conversation history: when the model call throws, the agent state (hence
its history) is exactly as before the call; the two history entries (user
task, assistant output) are appended exactly when the call succeeds. -/
theorem agentC9 (g : GenFn) (ag : AgentState) (task : String) (context : List Message) :
    (∀ e, g (buildPrompt ag task context) = Except.error e →
        (agentExecute (some g) ag task context).2 = ag) ∧
      (∀ raw, g (buildPrompt ag task context) = Except.ok raw →
        (agentExecute (some g) ag task context).2.conversationHistory =
          ag.conversationHistory ++
            [⟨"user", task⟩, ⟨"assistant", String.mk (trimChars raw.data)⟩]) := by
  constructor
  · intro e h
    simp [agentExecute, h]
  · intro raw h
    simp [agentExecute, h]

/-- A concrete agent state used by witnesses. -/
def demoAgent : AgentState := ⟨"coder", "sys", []⟩

/-- Witness for C9 at a concrete input: a model call that throws leaves the
concrete agent state unchanged. -/
theorem agentC9_witness :
    (agentExecute (some (fun _ => Except.error "boom")) demoAgent "t" []).2 = demoAgent :=
  (agentC9 (fun _ => Except.error "boom") demoAgent "t" []).1 "boom" rfl

/-! ## Swarm orchestrator (src/unnamed/part_002, class SwarmOrchestrator)

`BaseAgent.execute` mutates only `conversationHistory`, and no prompt or
result in the orchestration loop reads that history (`buildPrompt` ignores
it), so the loop below keeps the worker definitions fixed instead of
threading the updated agent states; every observable of the loop (results,
bus, recorded worker calls) is unchanged by this. -/

/-- One registered worker: its model call and its agent state. -/
structure WorkerDef where
  gen : Option GenFn
  agent : AgentState

/-- One invocation of `worker.execute(agentTask, context)` recorded by the
loop, for stating which context each worker received. -/
structure WorkerCall where
  agentName : String
  task : String
  context : List Message
deriving DecidableEq

/-- The loop state of `SwarmOrchestrator.execute` step 2: the message bus,
the per-delegation results so far, the worker calls made so far, and the
index of the next `send` call (fed to the wall clock). -/
structure OrchState where
  bus : List Message
  results : List String
  calls : List WorkerCall
  tick : Nat

/-- One iteration of the delegation loop (part_002 lines 125 to 164):
record the task message, resolve the worker; an unresolved worker yields
the literal error result and continues; a resolved worker receives the
context queried after the task message was sent, and its result message is
recorded. `clock` maps the index of a `send` call to the wall-clock
millisecond at which it happens. -/
def orchStep (clock : Nat → Nat) (workers : String → Option WorkerDef)
    (st : OrchState) (d : Delegation) : OrchState :=
  let bus1 := busSend st.bus (clock st.tick) "router" d.agent "task" d.task
  match workers d.agent with
  | none =>
    { bus := bus1,
      results := st.results ++ ["Error: Unknown agent \x27" ++ d.agent ++ "\x27"],
      calls := st.calls, tick := st.tick + 1 }
  | some w =>
    let context := getContextFor bus1 d.agent
    let result := (agentExecute w.gen w.agent d.task context).1
    { bus := busSend bus1 (clock (st.tick + 1)) d.agent "router" "result" result,
      results := st.results ++ [result],
      calls := st.calls ++ [⟨d.agent, d.task, context⟩],
      tick := st.tick + 2 }

/-- The whole delegation loop of `SwarmOrchestrator.execute` step 2. -/
def orchLoop (clock : Nat → Nat) (workers : String → Option WorkerDef)
    (ds : List Delegation) (st : OrchState) : OrchState :=
  ds.foldl (orchStep clock workers) st

/-- The loop state at the start of `execute`: empty bus, no results, no
calls, clock index zero. -/
def initOrchState : OrchState := ⟨[], [], [], 0⟩

/-- The synthesis prompt line block for one delegation and its result
(router-agent.ts lines 129 to 132): a missing or empty result renders as
`No result`. -/
def synthesisItem (results : List String) (p : Nat × Delegation) : String :=
  toString (p.1 + 1) ++ ". [" ++ p.2.agent ++ "] " ++ p.2.task ++ "\n" ++
    "   Result: " ++
      (if (results.getD p.1 "").data.isEmpty then "No result" else results.getD p.1 "") ++
    "\n\n"

/-- `RouterAgent.synthesizeResults` prompt (router-agent.ts lines 126 to
134): header, one block per delegation with its 1-based index, footer. -/
def synthesisPrompt (ds : List Delegation) (results : List String) : String :=
  ds.enum.foldl (fun acc p => acc ++ synthesisItem results p)
      "Synthesize a final response based on the following agent outputs:\n\n" ++
    "Provide a concise final report summarizing what was accomplished."

/-- `SwarmOrchestrator.execute` (part_002 lines 103 to 180) end to end:
step 1 plans via the router model call and `analyzeAndDelegate`, step 2
runs the delegation loop, step 3 synthesizes through one more router model
call. Returns the final text, the per-delegation results, and the loop
state. -/
def swarmExecute (clock : Nat → Nat) (routerGen : Option GenFn)
    (routerAg : AgentState) (workers : String → Option WorkerDef)
    (userTask : String) : String × List String × OrchState :=
  let plan := agentExecute routerGen routerAg userTask []
  let ds := analyzeAndDelegate plan.1 userTask
  let st := orchLoop clock workers ds initOrchState
  let final := agentExecute routerGen plan.2 (synthesisPrompt ds st.results) []
  (final.1, st.results, st)

/-- Each loop iteration appends exactly one result, in both the unresolved
and the resolved branch. -/
theorem orchStep_results (clock : Nat → Nat) (workers : String → Option WorkerDef)
    (st : OrchState) (d : Delegation) :
    ∃ r, (orchStep clock workers st d).results = st.results ++ [r] := by
  unfold orchStep
  cases workers d.agent <;> exact ⟨_, rfl⟩

/-- The loop only appends to the result list. -/
theorem orchLoop_results_ext (clock : Nat → Nat) (workers : String → Option WorkerDef) :
    ∀ (ds : List Delegation) (st : OrchState),
      ∃ t, (orchLoop clock workers ds st).results = st.results ++ t := by
  intro ds
  induction ds with
  | nil => exact fun st => ⟨[], by simp [orchLoop]⟩
  | cons d ds ih =>
    intro st
    obtain ⟨r, hr⟩ := orchStep_results clock workers st d
    obtain ⟨t, ht⟩ := ih (orchStep clock workers st d)
    exact ⟨r :: t, by simp [orchLoop] at ht ⊢; simp [ht, hr]⟩

/-- The loop appends exactly one result per delegation. -/
theorem orchLoop_results_length (clock : Nat → Nat) (workers : String → Option WorkerDef) :
    ∀ (ds : List Delegation) (st : OrchState),
      (orchLoop clock workers ds st).results.length = st.results.length + ds.length := by
  intro ds
  induction ds with
  | nil => intro st; simp [orchLoop]
  | cons d ds ih =>
    intro st
    obtain ⟨r, hr⟩ := orchStep_results clock workers st d
    have := ih (orchStep clock workers st d)
    simp only [orchLoop, List.foldl_cons] at this ⊢
    rw [this, hr]
    simp
    omega

/-- The property names every plain object literal inherits from
Object.prototype: a JS property read on the worker registry object returns
the inherited member for these keys even though no worker is registered
under them. -/
def objectProtoKeys : List String :=
  ["constructor", "hasOwnProperty", "isPrototypeOf", "propertyIsEnumerable",
    "toLocaleString", "toString", "valueOf", "__defineGetter__",
    "__defineSetter__", "__lookupGetter__", "__lookupSetter__", "__proto__"]

/-- The outcome of the JS property read `this.workers[agentName]` on the
registry object literal: an own entry (a registered worker), an inherited
Object.prototype member (truthy, but with no callable `execute`), or
undefined. -/
inductive WorkerRead where
  | own (w : WorkerDef)
  | inheritedMember
  | undef

/-- The JS property read on the worker registry: own properties first, then
the Object.prototype chain, then undefined. -/
def workerRead (own : String → Option WorkerDef) (name : String) : WorkerRead :=
  match own name with
  | some w => WorkerRead.own w
  | none =>
    if name ∈ objectProtoKeys then WorkerRead.inheritedMember else WorkerRead.undef

/-- One iteration of the delegation loop under the JS property-lookup
semantics (part_002 lines 125 to 164): an undefined read fails the
`!worker` guard and records the literal unknown-agent result string; an
inherited Object.prototype member is truthy, so the guard does not fire and
the subsequent `worker.execute(...)` call throws a TypeError that nothing
in `execute` catches, aborting the whole run (modelled as `Except.error`). -/
def orchStepJs (clock : Nat → Nat) (own : String → Option WorkerDef)
    (st : OrchState) (d : Delegation) : Except String OrchState :=
  let bus1 := busSend st.bus (clock st.tick) "router" d.agent "task" d.task
  match workerRead own d.agent with
  | WorkerRead.undef =>
    Except.ok
      { bus := bus1,
        results := st.results ++ ["Error: Unknown agent \x27" ++ d.agent ++ "\x27"],
        calls := st.calls, tick := st.tick + 1 }
  | WorkerRead.inheritedMember =>
    Except.error "TypeError: worker.execute is not a function"
  | WorkerRead.own w =>
    let context := getContextFor bus1 d.agent
    let result := (agentExecute w.gen w.agent d.task context).1
    Except.ok
      { bus := busSend bus1 (clock (st.tick + 1)) d.agent "router" "result" result,
        results := st.results ++ [result],
        calls := st.calls ++ [⟨d.agent, d.task, context⟩],
        tick := st.tick + 2 }

/-- The delegation loop under the JS property-lookup semantics: an uncaught
TypeError aborts the remaining delegations and the synthesis step. -/
def orchRunJs (clock : Nat → Nat) (own : String → Option WorkerDef) :
    List Delegation → OrchState → Except String OrchState
  | [], st => Except.ok st
  | d :: ds, st =>
    match orchStepJs clock own st d with
    | Except.ok st2 => orchRunJs clock own ds st2
    | Except.error e => Except.error e

/-- A worker built over the dummy client of base-agent.ts lines 35 to 41
(the test-environment client whose `generateContent` returns
`[<role>] Task completed`). -/
def dummyWorker (role : String) : WorkerDef :=
  ⟨some (fun _ => Except.ok ("[" ++ role ++ "] Task completed")), ⟨role, "sys", []⟩⟩

/-- The worker registry built by the orchestrator constructor (part_002
lines 91 to 95): own keys coder, reviewer, researcher. -/
def stdWorkers : String → Option WorkerDef :=
  fun n =>
    if n = "coder" ∨ n = "reviewer" ∨ n = "researcher" then some (dummyWorker n)
    else none

/-- Claim C5 fails on the code: the agent identity `toString` is not in the
worker registry (no own entry), yet the run does not record the literal
`Error: Unknown agent` result string and continue — the JS property read
returns the inherited Object.prototype member, the `!worker` guard does not
fire, and `worker.execute(...)` throws a TypeError that aborts the batch.
An ordinary unresolved identity such as `ghost` does take the guarded
branch: its run completes with exactly the literal error result string. -/
theorem orchC5_bug :
    stdWorkers "toString" = none ∧
      orchRunJs (fun _ => 0) stdWorkers [⟨"toString", "t"⟩] initOrchState =
        Except.error "TypeError: worker.execute is not a function" ∧
      orchRunJs (fun _ => 0) stdWorkers [⟨"ghost", "t"⟩] initOrchState =
        Except.ok
          ⟨[⟨"router", "ghost", "task", "t", 0⟩],
            ["Error: Unknown agent \x27ghost\x27"], [], 1⟩ := by
  exact ⟨rfl, rfl, rfl⟩

/-- Positional form of the resolved-worker branch when the model call of
the worker throws: the result recorded at the position of that delegation
is the role-tagged error string produced by the catch in
`BaseAgent.execute`, wherever the loop starts. -/
theorem orchLoop_throw_at (clock : Nat → Nat) (workers : String → Option WorkerDef) :
    ∀ (ds : List Delegation) (st : OrchState) (i : Nat) (d : Delegation)
      (w : WorkerDef) (g : GenFn) (c : String),
      ds.get? i = some d → workers d.agent = some w → w.gen = some g →
        (∀ p, g p = Except.error c) →
          (orchLoop clock workers ds st).results.get? (st.results.length + i) =
            some ("[" ++ w.agent.role ++ "] Error executing task: " ++ c) := by
  intro ds
  induction ds with
  | nil => intro st i d w g c hd; simp at hd
  | cons d0 ds ih =>
    intro st i d w g c hd hw hg hthrow
    match i with
    | 0 =>
      simp only [List.get?] at hd
      cases hd
      simp only [orchLoop, List.foldl_cons]
      obtain ⟨t, ht⟩ := orchLoop_results_ext clock workers ds (orchStep clock workers st d0)
      have hstep : (orchStep clock workers st d0).results =
          st.results ++ ["[" ++ w.agent.role ++ "] Error executing task: " ++ c] := by
        unfold orchStep
        rw [hw]
        simp only [agentExecute, hg, hthrow]
      rw [show orchLoop clock workers ds (orchStep clock workers st d0) =
          ds.foldl (orchStep clock workers) (orchStep clock workers st d0) from rfl] at ht
      rw [ht, hstep, List.append_assoc]
      rw [List.get?_append_right (by omega)]
      simp
    | i + 1 =>
      simp only [List.get?] at hd
      simp only [orchLoop, List.foldl_cons]
      obtain ⟨r, hr⟩ := orchStep_results clock workers st d0
      have := ih (orchStep clock workers st d0) i d w g c hd hw hg hthrow
      rw [hr] at this
      simp only [List.length_append, List.length_cons, List.length_nil] at this
      rw [show st.results.length + (i + 1) = st.results.length + 1 + i by omega]
      exact this

/-- A registered coder worker whose single model call always throws the
cause `boom`. -/
def throwingCoder : WorkerDef :=
  ⟨some (fun _ => Except.error "boom"), ⟨"coder", "sys", []⟩⟩

/-- A worker registry with only the throwing coder. -/
def c6workers : String → Option WorkerDef :=
  fun n => if n = "coder" then some throwingCoder else none

/-- Counterexample to claim C6 as stated: when the model call of the coder
worker throws the cause `boom`, the result recorded at that delegation
position is the role-tagged string, not the bare string
`Error executing task: boom` the claim names. -/
theorem orchC6_counterexample :
    (orchLoop (fun _ => 0) c6workers [⟨"coder", "do it"⟩] initOrchState).results =
        ["[coder] Error executing task: boom"] ∧
      (orchLoop (fun _ => 0) c6workers [⟨"coder", "do it"⟩] initOrchState).results ≠
        ["Error executing task: boom"] := by
  constructor
  · decide
  · decide

/-- Claim C6 as amended: for every delegation whose resolved worker has a
model call that throws with cause c, the exception is caught and the result
recorded at that delegation position is the role-tagged string
`[<role>] Error executing task: <cause>`, and the loop still records one
result per delegation (the remaining delegations and the synthesis step are
not aborted). -/
theorem orchC6_amended (clock : Nat → Nat) (workers : String → Option WorkerDef)
    (ds : List Delegation) (i : Nat) (d : Delegation) (w : WorkerDef)
    (g : GenFn) (c : String)
    (hd : ds.get? i = some d) (hw : workers d.agent = some w) (hg : w.gen = some g)
    (hthrow : ∀ p, g p = Except.error c) :
    (orchLoop clock workers ds initOrchState).results.get? i =
        some ("[" ++ w.agent.role ++ "] Error executing task: " ++ c) ∧
      (orchLoop clock workers ds initOrchState).results.length = ds.length := by
  constructor
  · have := orchLoop_throw_at clock workers ds initOrchState i d w g c hd hw hg hthrow
    simpa [initOrchState] using this
  · simpa [initOrchState] using
      orchLoop_results_length clock workers ds initOrchState

/-- Witness for the amended C6 at a concrete input: one delegation to the
registered throwing coder. -/
theorem orchC6_amended_witness :
    (orchLoop (fun _ => 0) c6workers [⟨"coder", "do it"⟩] initOrchState).results.get? 0 =
        some ("[" ++ throwingCoder.agent.role ++ "] Error executing task: " ++ "boom") ∧
      (orchLoop (fun _ => 0) c6workers [⟨"coder", "do it"⟩] initOrchState).results.length =
        [(⟨"coder", "do it"⟩ : Delegation)].length :=
  orchC6_amended (fun _ => 0) c6workers [⟨"coder", "do it"⟩] 0 ⟨"coder", "do it"⟩
    throwingCoder (fun _ => Except.error "boom") "boom" rfl rfl rfl (fun _ => rfl)

/-- The context a resolved worker receives always ends with the task
message of its own delegation: the task message is appended to the bus
before the context query runs, and the query keeps it because it is
addressed to that worker. Invariant form over any starting state. -/
theorem orchLoop_calls_inv (clock : Nat → Nat) (workers : String → Option WorkerDef) :
    ∀ (ds : List Delegation) (st : OrchState),
      (∀ c ∈ st.calls, c.context ≠ [] ∧
        ∃ ts, c.context.getLast? = some ⟨"router", c.agentName, "task", c.task, ts⟩) →
      ∀ c ∈ (orchLoop clock workers ds st).calls,
        c.context ≠ [] ∧
          ∃ ts, c.context.getLast? = some ⟨"router", c.agentName, "task", c.task, ts⟩ := by
  intro ds
  induction ds with
  | nil => intro st h; simpa [orchLoop] using h
  | cons d0 ds ih =>
    intro st h
    simp only [orchLoop, List.foldl_cons]
    refine ih (orchStep clock workers st d0) ?_
    intro c hc
    unfold orchStep at hc
    cases hwd : workers d0.agent with
    | none =>
      rw [hwd] at hc
      exact h c hc
    | some w =>
      rw [hwd] at hc
      simp only [List.mem_append, List.mem_singleton] at hc
      rcases hc with hc | hc
      · exact h c hc
      · subst hc
        simp only
        constructor
        · simp [getContextFor, busSend, List.filter_append]
        · refine ⟨clock st.tick, ?_⟩
          simp [getContextFor, busSend, List.filter_append]

/-- Claim C10: in a full run of the delegation loop, every context list
passed to a resolved worker is not the messages strictly prior to the
delegation: its last element is the task-kind message of the current
delegation itself, because the task message is appended to the bus before
the context query for that worker runs. -/
theorem orchC10 (clock : Nat → Nat) (workers : String → Option WorkerDef)
    (ds : List Delegation) (c : WorkerCall)
    (hc : c ∈ (orchLoop clock workers ds initOrchState).calls) :
    c.context ≠ [] ∧
      ∃ ts, c.context.getLast? = some ⟨"router", c.agentName, "task", c.task, ts⟩ :=
  orchLoop_calls_inv clock workers ds initOrchState
    (by intro c hc; simp [initOrchState] at hc) c hc

/-- A registered coder worker whose model call succeeds with `done`. -/
def okCoder : WorkerDef :=
  ⟨some (fun _ => Except.ok "done"), ⟨"coder", "sys", []⟩⟩

/-- A worker registry with only the succeeding coder. -/
def c10workers : String → Option WorkerDef :=
  fun n => if n = "coder" then some okCoder else none

/-- Witness for C10 at a concrete input: the single worker call of a
one-delegation run receives a context whose last element is the task
message of that delegation. -/
theorem orchC10_witness :
    (⟨"coder", "t", [⟨"router", "coder", "task", "t", 5⟩]⟩ : WorkerCall).context ≠ [] ∧
      ∃ ts, (⟨"coder", "t", [⟨"router", "coder", "task", "t", 5⟩]⟩ :
          WorkerCall).context.getLast? = some ⟨"router", "coder", "task", "t", ts⟩ :=
  orchC10 (fun _ => 5) c10workers [⟨"coder", "t"⟩]
    ⟨"coder", "t", [⟨"router", "coder", "task", "t", 5⟩]⟩ (by decide)

/-! ## MCP client manager (src/unnamed/part_006, mcp-client module) -/

/-- The `MCPTool` record: one tool discovered from an MCP server. The
source field `inputSchema : Record<string, unknown>` is modelled as a
key-value list of strings; no operation verified here reads it. -/
structure MCPTool where
  name : String
  description : String
  serverName : String
  inputSchema : List (String × String)
  originalName : String
deriving DecidableEq

/-- `getPrefixedName` (part_006 module lines 216 to 221): the local name
under which a discovered tool is registered in the callables map built by
`getAllToolsAsCallables`; a falsy (empty) configured tool name lead-in is
dropped. -/
def getPrefixedName (tool : MCPTool) (pfx : String) : String :=
  if pfx.data.isEmpty then tool.serverName ++ "_" ++ tool.originalName
  else pfx ++ tool.serverName ++ "_" ++ tool.originalName

/-- The character data of an appended string is the appended character
data. -/
theorem strData_append (s t : String) : (s ++ t).data = s.data ++ t.data := by
  cases s
  cases t
  rfl

/-- The character data of the one-character separator string. -/
theorem underscore_data : "_".data = ['_'] := rfl

/-- The character data of the registered local name, uniformly over both
branches of `getPrefixedName`. -/
theorem getPrefixedName_data (tool : MCPTool) (pfx : String) :
    (getPrefixedName tool pfx).data =
      pfx.data ++ (tool.serverName.data ++ ('_' :: tool.originalName.data)) := by
  unfold getPrefixedName
  cases h : pfx.data with
  | nil =>
    have hc : ([] : List Char).isEmpty = true := rfl
    rw [if_pos hc]
    rw [strData_append, strData_append, underscore_data]
    simp
  | cons c cs =>
    rw [if_neg (by simp)]
    rw [strData_append, strData_append, strData_append, underscore_data, h]
    simp

/-- Splitting at a separator character that occurs in neither left part is
unambiguous. -/
theorem sep_split_unique (sep : Char) :
    ∀ (s1 s2 o1 o2 : List Char), sep ∉ s1 → sep ∉ s2 →
      s1 ++ sep :: o1 = s2 ++ sep :: o2 → s1 = s2 ∧ o1 = o2 := by
  intro s1
  induction s1 with
  | nil =>
    intro s2 o1 o2 h1 h2 h
    cases s2 with
    | nil => simpa using h
    | cons c cs =>
      simp only [List.nil_append, List.cons_append, List.cons.injEq] at h
      exact absurd (h.1 ▸ List.mem_cons_self c cs) h2
  | cons c cs ih =>
    intro s2 o1 o2 h1 h2 h
    cases s2 with
    | nil =>
      simp only [List.nil_append, List.cons_append, List.cons.injEq] at h
      exact absurd (h.1.symm ▸ List.mem_cons_self c cs) h1
    | cons c2 cs2 =>
      simp only [List.cons_append, List.cons.injEq] at h
      obtain ⟨hc, hrest⟩ := h
      have := ih cs2 o1 o2 (fun hm => h1 (List.mem_cons_of_mem c hm))
        (fun hm => h2 (List.mem_cons_of_mem c2 hm)) hrest
      exact ⟨by rw [hc, this.1], this.2⟩

/-- Two strings with equal character data are equal. -/
theorem strEq_of_data {s t : String} (h : s.data = t.data) : s = t := by
  cases s
  cases t
  exact congrArg String.mk h

/-- Counterexample to claim C4 as stated: with the default tool lead-in
`mcp_`, the two distinct (provider, original name) pairs (`a_b`, `c`) and
(`a`, `b_c`) are registered under the same local name `mcp_a_b_c`, so the
derived names do collide. -/
theorem mcpC4_counterexample :
    ((⟨"c", "", "a_b", [], "c"⟩ : MCPTool).serverName,
        (⟨"c", "", "a_b", [], "c"⟩ : MCPTool).originalName) ≠
      ((⟨"b_c", "", "a", [], "b_c"⟩ : MCPTool).serverName,
        (⟨"b_c", "", "a", [], "b_c"⟩ : MCPTool).originalName) ∧
      getPrefixedName ⟨"c", "", "a_b", [], "c"⟩ "mcp_" =
        getPrefixedName ⟨"b_c", "", "a", [], "b_c"⟩ "mcp_" := by
  constructor
  · decide
  · decide

/-- Claim C4 as amended: the derived local names are collision-free for
distinct (provider, original name) pairs provided provider names contain no
underscore: under that proviso, equal derived names (for one configured
lead-in) force equal provider names and equal original names. -/
theorem mcpC4_amended (pfx : String) (t1 t2 : MCPTool)
    (h1 : ('_' ∈ t1.serverName.data) → False)
    (h2 : ('_' ∈ t2.serverName.data) → False)
    (hne : getPrefixedName t1 pfx = getPrefixedName t2 pfx) :
    t1.serverName = t2.serverName ∧ t1.originalName = t2.originalName := by
  have hd := congrArg String.data hne
  rw [getPrefixedName_data, getPrefixedName_data] at hd
  have hd2 := List.append_cancel_left hd
  have := sep_split_unique '_' t1.serverName.data t2.serverName.data
    t1.originalName.data t2.originalName.data h1 h2 hd2
  exact ⟨strEq_of_data this.1, strEq_of_data this.2⟩

/-- Witness for the amended C4 at a concrete input: an underscore-free
provider name and matching derived names. -/
theorem mcpC4_amended_witness :
    (⟨"x", "", "srv", [], "x"⟩ : MCPTool).serverName =
        (⟨"x", "", "srv", [], "x"⟩ : MCPTool).serverName ∧
      (⟨"x", "", "srv", [], "x"⟩ : MCPTool).originalName =
        (⟨"x", "", "srv", [], "x"⟩ : MCPTool).originalName :=
  mcpC4_amended "mcp_" ⟨"x", "", "srv", [], "x"⟩ ⟨"x", "", "srv", [], "x"⟩
    (by decide) (by decide) rfl

/-! ## Agent tool dispatch (src/unnamed/part_004, GeminiAgent.act) -/

/-- Tool arguments: the parsed `args` JSON object, modelled as a key-value
list of strings (never read by the dispatch logic verified here). -/
abbrev ToolArgs := List (String × String)

/-- A registered tool function: may return a result text or throw. -/
abbrev ToolFn := ToolArgs → Except String String

/-- The tool dispatch step of `GeminiAgent.act` (part_004 lines 394 to
406): look the requested name up in `availableTools`; an unregistered name
yields the literal not-registered observation; a registered tool is called
with the arguments, a throw being caught into an error observation. The
observation is always a plain string, never a raised exception. -/
def dispatchTool (tools : String → Option ToolFn) (toolName : String)
    (args : ToolArgs) : String :=
  match tools toolName with
  | none => "Requested tool \x27" ++ toolName ++ "\x27 is not registered."
  | some f =>
    match f args with
    | Except.ok s => s
    | Except.error e => "Error executing tool \x27" ++ toolName ++ "\x27: " ++ e

/-- Claim C7: dispatching a capability whose name is not in the registry
returns the literal not-registered text result, for every unregistered name
and every argument value; dispatch is a total function into strings, so no
exception reaches the caller on any path. -/
theorem toolC7 (tools : String → Option ToolFn) (toolName : String) (args : ToolArgs)
    (h : tools toolName = none) :
    dispatchTool tools toolName args =
      "Requested tool \x27" ++ toolName ++ "\x27 is not registered." := by
  unfold dispatchTool
  rw [h]

/-- Witness for C7 at a concrete input: the empty registry with a concrete
name and argument list. -/
theorem toolC7_witness :
    dispatchTool (fun _ => none) "browse" [("url", "x")] =
      "Requested tool \x27" ++ "browse" ++ "\x27 is not registered." :=
  toolC7 (fun _ => none) "browse" [("url", "x")] rfl
